import Mathlib

/-!
Verification of the zaqar log-watching pipeline (src/main.go) against its
specification. The Go program is shallowly embedded: the collector's
mutex-guarded map becomes a function from source names to an optional list
of recorded lines, matchers become Boolean predicates over strings, and the
per-source pipeline's channel discipline is modelled explicitly where a
claim depends on it.
-/

namespace Zaqar

/-- Model of Go's strings.Contains collaborator: true iff sub occurs as a
contiguous substring (infix) of s, checked position by position. -/
def charsContain (s sub : List Char) : Bool :=
  match s with
  | [] => sub.isEmpty
  | _ :: t => sub.isPrefixOf s || charsContain t sub

/-- Go strings.Contains(s, substr): substr is within s. -/
def stringsContains (s substr : String) : Bool :=
  charsContain s.data substr.data

/-- substringMatcher.Match from src/main.go line 164-166: the method body is
literally strings.Contains(m.criteria, text), i.e. it asks whether the
line text occurs inside the configured criteria. -/
def substringMatch (criteria text : String) : Bool :=
  stringsContains criteria text

/-- The direction the spec contract states for the substring matcher
(section 4.1): match(line) is true iff the configured criteria occurs as a
substring of the line. Stated from the spec's words for comparison with
substringMatch, which is taken from the source. -/
def specSubstringMatch (criteria text : String) : Bool :=
  stringsContains text criteria

/-- The collector's errors field, a Go map[string][]string: none models an
absent key, some l a present key bound to slice l. -/
def collectorState : Type := String → Option (List String)

/-- NewCollector starts from an empty map. -/
def emptyCollector : collectorState := fun _ => none

/-- collector.Add from src/main.go line 80-89: if the key is absent it is
first bound to the empty slice, then the message is appended; the net
effect on the key is none to some of a singleton, some l to some of l
with message appended. Other keys are untouched. -/
def collectorAdd (c : collectorState) (name message : String) : collectorState :=
  fun k =>
    if k = name then
      match c name with
      | none => some [message]
      | some l => some (l ++ [message])
    else c k

/-- collector.HasErrors from src/main.go line 92-99: the comma-ok form of a
Go map lookup, true iff the key is present. -/
def hasErrors (c : collectorState) (name : String) : Bool :=
  (c name).isSome

/-- collector.Errors from src/main.go line 102-107: a Go map read returns
the zero value (nil slice, here the empty list) for an absent key. -/
def collectorErrors (c : collectorState) (name : String) : List String :=
  (c name).getD []

/-- The body of the single aggregate message collector.Send builds from
src/main.go line 110-125: the recorded lines for the name joined with
newline separators. none models the no-delivery branch taken when
HasErrors is false; some body models the one mailgun Send call per
invocation. -/
def sendDelivery (c : collectorState) (name : String) : Option String :=
  if hasErrors c name then some (String.intercalate "\n" (collectorErrors c name)) else none

/-- collector.Send as a state transformer: the method never writes to the
errors map, so the state component is returned unchanged, paired with the
at-most-one delivery it performs. -/
def collectorSend (c : collectorState) (name : String) : collectorState × Option String :=
  (c, sendDelivery c name)

/-- A run of Add calls in the order the workers issued them, starting from
the fresh collector of main (src/main.go line 194). -/
def addAll (ops : List (String × String)) : collectorState :=
  ops.foldl (fun c p => collectorAdd c p.1 p.2) emptyCollector

/-- The messages among a run of Add calls that were recorded under a given
name, in issue order. -/
def opsFor (name : String) (ops : List (String × String)) : List String :=
  (ops.filter (fun p => p.1 == name)).map Prod.snd

/-- The receive loop of startMatcher (src/main.go line 271-276) once a
matcher m was constructed: for each line drained from the queue, Add is
called exactly when m.Match is true. -/
def workerRun (m : String → Bool) (name : String) (ls : List String) (c : collectorState) : collectorState :=
  ls.foldl (fun c line => if m line then collectorAdd c name line else c) c

/-- Whether the worker goroutine of startMatcher (src/main.go line 257-277)
reaches its receive loop. The switch recognizes the flavours regexp and
substring and then enters the range loop over the queue; the default branch
logs the unknown flavour and returns before the loop, so that worker never
receives from its queue. -/
def workerDrains (flavour : String) : Bool :=
  flavour == "regexp" || flavour == "substring"

/-- Whether every channel send in startPipeline's scan loop (src/main.go
line 229-236) completes. Each worker queue is a Go channel of capacity 1
(line 216) whose only sender is the coordinator. A worker that drains keeps
receiving until the coordinator closes the channel, so every send to its
queue completes. A worker that returned before its receive loop never
receives, so the first send to its queue parks in the single buffer slot
and the second send blocks forever. All sends therefore complete iff every
worker drains, or at most one line is scanned. -/
def broadcastCompletes (matchers : List (String × String)) (ls : List String) : Bool :=
  matchers.all (fun m => workerDrains m.1) || decide (ls.length ≤ 1)

/-- In each line broadcast the coordinator ranges over queues, a Go
map[int]chan string keyed by matcher index (src/main.go line 214, 233). Go
leaves map iteration order unspecified and the runtime randomizes it, so
the model takes the order a range statement produces as a parameter: any
listing of the key set 0..n-1 is a possible iteration order. -/
def validIterationOrder (n : Nat) (ord : List Nat) : Prop :=
  List.Perm ord (List.range n)

/-- The sequence of (worker index, line) channel sends one broadcast
performs when the range statement yields the queues in the order ord. -/
def broadcastSends (line : String) (ord : List Nat) : List (Nat × String) :=
  ord.map (fun i => (i, line))

/-- The I/O outcome of streaming one source's file in startPipeline: either
the os.Open call fails, or the scanner yields some lines and then
scanner.Err reports whether a read error stopped the scan. -/
inductive FileRead where
  | openFail : FileRead
  | scanned : List String → Bool → FileRead
deriving DecidableEq

/-- Whether startPipeline (src/main.go line 221-239) hits one of its two
log.Fatal calls for this source: the open error path or the scanner error
path. Both paths call log.Fatal, which prints the error and calls
os.Exit(1); no branch recovers. -/
def pipelineFatal : FileRead → Bool
  | .openFail => true
  | .scanned _ e => e

/-- The process exit status of one run over the configured sources.
log.Fatal inside any source's pipeline exits the whole process with status
1 immediately, regardless of the other pipelines' progress; otherwise main
waits for every pipeline and returns normally with status 0. -/
def runExitStatus (files : List FileRead) : Nat :=
  if files.any pipelineFatal then 1 else 0

theorem foldAdd_apply (ops : List (String × String)) (c : collectorState) (name : String) :
    (ops.foldl (fun c p => collectorAdd c p.1 p.2) c) name =
      match c name with
      | none => if opsFor name ops = [] then none else some (opsFor name ops)
      | some l => some (l ++ opsFor name ops) := by
  induction ops generalizing c with
  | nil =>
    cases hc : c name <;> simp [opsFor, hc]
  | cons p ops ih =>
    have step : (List.foldl (fun c p => collectorAdd c p.1 p.2) c (p :: ops)) name =
        (List.foldl (fun c p => collectorAdd c p.1 p.2) (collectorAdd c p.1 p.2) ops) name := rfl
    rw [step, ih]
    by_cases hp : p.1 = name
    · cases hc : c name with
      | none =>
        simp [collectorAdd, hp, hc, opsFor]
      | some l =>
        simp [collectorAdd, hp, hc, opsFor]
    · have hne : ¬ name = p.1 := fun h => hp h.symm
      have hadd : (collectorAdd c p.1 p.2) name = c name := by
        simp [collectorAdd, hne]
      rw [hadd]
      have hops : opsFor name (p :: ops) = opsFor name ops := by
        simp [opsFor, hp]
      rw [hops]

theorem addAll_apply (ops : List (String × String)) (name : String) :
    addAll ops name = if opsFor name ops = [] then none else some (opsFor name ops) := by
  have h := foldAdd_apply ops emptyCollector name
  simpa [addAll, emptyCollector] using h

theorem workerRun_apply (m : String → Bool) (name : String) (ls : List String)
    (c : collectorState) :
    (workerRun m name ls c) name =
      match c name with
      | none => if ls.filter m = [] then none else some (ls.filter m)
      | some l => some (l ++ ls.filter m) := by
  induction ls generalizing c with
  | nil =>
    cases hc : c name <;> simp [workerRun, hc]
  | cons line ls ih =>
    by_cases hm : m line
    · have step : workerRun m name (line :: ls) c = workerRun m name ls (collectorAdd c name line) := by
        simp [workerRun, hm]
      rw [step, ih]
      cases hc : c name with
      | none => simp [collectorAdd, hc, hm, List.filter_cons]
      | some l => simp [collectorAdd, hc, hm, List.filter_cons]
    · have step : workerRun m name (line :: ls) c = workerRun m name ls c := by
        simp [workerRun, hm]
      rw [step, ih]
      cases hc : c name <;> simp [hc, hm, List.filter_cons]

/-- The lines recorded under a name by a single worker started on a fresh
collector. -/
theorem workerRun_errors (m : String → Bool) (name : String) (ls : List String) :
    collectorErrors (workerRun m name ls emptyCollector) name = ls.filter m := by
  have h := workerRun_apply m name ls emptyCollector
  by_cases hf : ls.filter m = []
  · simp [collectorErrors, emptyCollector, hf] at h ⊢
    simp [h, hf]
  · simp [collectorErrors, emptyCollector, hf] at h ⊢
    simp [h]

/-- Claim C1: the claim states that substringMatcher.Match(s) is true iff
the criteria occurs as a substring of s. With criteria "disk full" and line
"ERROR: disk full" the criteria does occur in the line, so the claim
demands true, but the code computes strings.Contains(criteria, line) and
returns false: the containment test in the source is inverted relative to
the claimed (and spec-intended) direction. -/
theorem c1_substring_direction_bug :
    substringMatch "disk full" "ERROR: disk full" = false ∧
    specSubstringMatch "disk full" "ERROR: disk full" = true := by
  exact ⟨by decide, by decide⟩

/-- Claim C2: a source whose matcher list holds an unrecognized kind bogus
next to a recognized substring matcher, over a two-line file. The bogus
worker returns before its receive loop, so it never drains its depth-1
queue, and the coordinator's second broadcast to that queue blocks
forever: the pipeline does not complete, contradicting the claim that the
unrecognized-kind worker drains and discards its input and never stalls
the source. With only the recognized matcher the same file completes. -/
theorem c2_unknown_kind_stalls :
    workerDrains "bogus" = false ∧
    workerDrains "substring" = true ∧
    broadcastCompletes [("bogus", "x"), ("substring", "ERROR")]
      ["line one", "line two"] = false ∧
    broadcastCompletes [("substring", "ERROR")] ["line one", "line two"] = true := by
  exact ⟨by decide, by decide, by decide, by decide⟩

/-- Claim C3: the claim states that the hand-off order over matchers is
fixed and deterministic per run. The coordinator ranges over a Go map, so
for two matchers both [0, 1] and [1, 0] are possible iteration orders of
one broadcast, and they hand the line to the workers in different orders:
the code does not fix the order the claim requires. -/
theorem c3_broadcast_order_not_deterministic :
    validIterationOrder 2 [0, 1] ∧ validIterationOrder 2 [1, 0] ∧
    broadcastSends "line" [0, 1] ≠ broadcastSends "line" [1, 0] := by
  refine ⟨?_, ?_, by decide⟩
  · unfold validIterationOrder
    decide
  · unfold validIterationOrder
    decide

/-- Claim C4: for a name with at least one recorded match, Send delivers
exactly one aggregate message, its body is the recorded lines for the name
joined in collector order with newline separators, the recorded list holds
one line per Add event, and its length equals the number of Add calls made
for the name. -/
theorem c4_send_aggregate (ops : List (String × String)) (name : String)
    (h : opsFor name ops ≠ []) :
    sendDelivery (addAll ops) name = some (String.intercalate "\n" (opsFor name ops)) ∧
    collectorErrors (addAll ops) name = opsFor name ops ∧
    (collectorErrors (addAll ops) name).length = (opsFor name ops).length := by
  have ha := addAll_apply ops name
  rw [if_neg h] at ha
  have herr : collectorErrors (addAll ops) name = opsFor name ops := by
    simp [collectorErrors, ha]
  have hhas : hasErrors (addAll ops) name = true := by
    simp [hasErrors, ha]
  exact ⟨by simp [sendDelivery, hhas, herr], herr, by rw [herr]⟩

theorem c4_send_aggregate_witness :
    sendDelivery (addAll [("app", "e1"), ("web", "w1"), ("app", "e2")]) "app" =
      some (String.intercalate "\n"
        (opsFor "app" [("app", "e1"), ("web", "w1"), ("app", "e2")])) :=
  (c4_send_aggregate [("app", "e1"), ("web", "w1"), ("app", "e2")] "app" (by decide)).1

/-- Claim C5: a name is a key of the collector map iff at least one Add
call recorded a match for it, and a present key is bound to the full,
non-empty list of the messages recorded for it. -/
theorem c5_key_invariant (ops : List (String × String)) (name : String) :
    (hasErrors (addAll ops) name = true ↔ opsFor name ops ≠ []) ∧
    ∀ l, addAll ops name = some l → l = opsFor name ops ∧ l ≠ [] := by
  have ha := addAll_apply ops name
  constructor
  · by_cases h : opsFor name ops = []
    · rw [if_pos h] at ha
      simp [hasErrors, ha, h]
    · rw [if_neg h] at ha
      simp [hasErrors, ha, h]
  · intro l hl
    by_cases h : opsFor name ops = []
    · rw [if_pos h] at ha
      rw [ha] at hl
      cases hl
    · rw [if_neg h] at ha
      rw [ha] at hl
      have heq : opsFor name ops = l := Option.some.inj hl
      exact ⟨heq.symm, heq ▸ h⟩

theorem c5_key_invariant_witness :
    hasErrors (addAll [("app", "e1")]) "app" = true ∧ ("e1" :: []) ≠ ([] : List String) :=
  ⟨(c5_key_invariant [("app", "e1")] "app").1.mpr (by decide),
   ((c5_key_invariant [("app", "e1")] "app").2 ["e1"] (by decide)).2⟩

/-- Claim C6: for a name for which no Add call was ever made, HasErrors is
false and Send takes its no-delivery branch, leaving the collector state
unchanged. -/
theorem c6_no_adds_no_send (ops : List (String × String)) (name : String)
    (h : opsFor name ops = []) :
    hasErrors (addAll ops) name = false ∧
    collectorSend (addAll ops) name = (addAll ops, none) := by
  have ha := addAll_apply ops name
  rw [if_pos h] at ha
  have hhe : hasErrors (addAll ops) name = false := by
    simp [hasErrors, ha]
  exact ⟨hhe, by simp [collectorSend, sendDelivery, hhe]⟩

theorem c6_no_adds_no_send_witness :
    hasErrors (addAll [("web", "w1")]) "app" = false :=
  (c6_no_adds_no_send [("web", "w1")] "app" (by decide)).1

/-- Claim C7: if any source's file open fails or its scan hits a read
error, the run exits through log.Fatal with status 1 — a non-zero status —
regardless of the other sources' outcomes; startPipeline has no branch
that recovers from these I/O errors. -/
theorem c7_io_error_fatal (files : List FileRead) (f : FileRead)
    (hf : f ∈ files) (hfatal : pipelineFatal f = true) :
    runExitStatus files = 1 ∧ runExitStatus files ≠ 0 := by
  have hany : files.any pipelineFatal = true := List.any_eq_true.mpr ⟨f, hf, hfatal⟩
  constructor <;> simp [runExitStatus, hany]

theorem c7_io_error_fatal_witness :
    runExitStatus [FileRead.scanned ["ok"] false, FileRead.openFail] = 1 :=
  (c7_io_error_fatal [FileRead.scanned ["ok"] false, FileRead.openFail] FileRead.openFail
    (by decide) (by decide)).1

/-- Claim C8: a single worker fed lines in order records under its source
exactly the subsequence of lines its matcher accepts, in file order; on a
fresh collector this is the collector's whole list for that source. -/
theorem c8_single_matcher_order (m : String → Bool) (name : String) (ls : List String) :
    collectorErrors (workerRun m name ls emptyCollector) name = ls.filter m :=
  workerRun_errors m name ls

/-- Claim C9: whatever the criteria, the substring matcher accepts the
empty line, because the empty string is an infix in either containment
direction; hence a worker running a substring matcher records every blank
line it is fed. -/
theorem c9_empty_line_matches (criteria name : String) (ls : List String)
    (h : "" ∈ ls) :
    substringMatch criteria "" = true ∧
    "" ∈ collectorErrors (workerRun (substringMatch criteria) name ls emptyCollector) name := by
  have hnil : ∀ cs : List Char, charsContain cs [] = true := by
    intro cs
    cases cs <;> simp [charsContain, List.isPrefixOf]
  have hm : substringMatch criteria "" = true := by
    have hdata : ("" : String).data = [] := rfl
    simp [substringMatch, stringsContains, hdata, hnil]
  refine ⟨hm, ?_⟩
  rw [workerRun_errors]
  exact List.mem_filter.mpr ⟨h, hm⟩

theorem c9_empty_line_matches_witness :
    substringMatch "ERROR" "" = true ∧
    "" ∈ collectorErrors
      (workerRun (substringMatch "ERROR") "app" ["", "boot ok"] emptyCollector) "app" :=
  c9_empty_line_matches "ERROR" "app" ["", "boot ok"] (by decide)

/-- Claim C10: Add appends exactly one element, the message, at the end of
the list for the given name, and leaves the binding of every other key
untouched; no previously recorded entry is removed or reordered. -/
theorem c10_add_frame (c : collectorState) (name message : String) :
    collectorErrors (collectorAdd c name message) name = collectorErrors c name ++ [message] ∧
    ∀ k, k ≠ name → collectorAdd c name message k = c k := by
  constructor
  · cases hc : c name <;> simp [collectorErrors, collectorAdd, hc]
  · intro k hk
    simp [collectorAdd, hk]

theorem c10_add_frame_witness :
    collectorErrors (collectorAdd emptyCollector "app" "e1") "app" = ["e1"] ∧
    collectorAdd emptyCollector "app" "e1" "web" = none := by
  have h := c10_add_frame emptyCollector "app" "e1"
  exact ⟨by rw [h.1]; rfl, (h.2 "web" (by decide)).trans rfl⟩

end Zaqar
